import Mathlib

/-!
Verification of the pywavesurfer data-file loader (`pywavesurfer/ws.py`).

The development shallowly embeds the loader: HDF5 nodes become an inductive
tree, numpy scalars/vectors/matrices become `ℚ` / `List ℚ` / `List (List ℚ)`
payloads (double-precision values are modelled as exact rationals), Python
dictionaries become association lists with insert-or-replace update, and
fallible Python code returns `Except PyErr`.
-/
/-- Raw numeric or byte payload of an HDF5 dataset, as produced by `item[()]`
in `crawl_h5_group`.  Floating-point contents are modelled as exact rationals. -/
inductive Payload where
  | numScalar (q : ℚ)
  | numVec (l : List ℚ)
  | numMat (m : List (List ℚ))
  | bytes (s : String)

/-- A value of the decoded tree (`data_file_as_dict` and its sub-dicts): either
a dataset payload or a nested Python dict, modelled as an association list. -/
inductive DVal where
  | leaf (p : Payload)
  | dict (entries : List (String × DVal))

/-- The Python-dict model: an association list with unique keys maintained by
insert-or-replace update (`dset`). -/
abbrev Dict := List (String × DVal)

/-- An h5py node: a `Group` with named children, a `Dataset` with a payload, or
any other node kind (soft links etc.), which `crawl_h5_group` skips. -/
inductive H5Node where
  | group (children : List (String × H5Node))
  | dataset (p : Payload)
  | other

/-- The Python exceptions the embedded code can raise. -/
inductive PyErr where
  | keyError (msg : String)
  | valueError (msg : String)
  | typeError (msg : String)
  | runtimeError (msg : String)
  | zeroDivisionError (msg : String)
deriving DecidableEq

/-- Python dict lookup `d[k]` as an `Option` (first entry with the key). -/
def dget (d : Dict) (k : String) : Option DVal :=
  match d with
  | [] => none
  | (k1, v1) :: rest => if k1 = k then some v1 else dget rest k

/-- Python dict assignment `d[k] = v`: replace the first entry with the key in
place, or append a new entry. -/
def dset (d : Dict) (k : String) (v : DVal) : Dict :=
  match d with
  | [] => [(k, v)]
  | (k1, v1) :: rest => if k1 = k then (k, v) :: rest else (k1, v1) :: dset rest k v

/-- Python dict membership test `k in d`. -/
def dmem (d : Dict) (k : String) : Prop := (dget d k).isSome

instance (d : Dict) (k : String) : Decidable (dmem d k) := by
  unfold dmem
  infer_instance

/-- Keyed lookup raising `KeyError` when absent, i.e. Python `d[k]` on a dict. -/
def pyGet (d : Dict) (k : String) : Except PyErr DVal :=
  match dget d k with
  | some v => Except.ok v
  | none => Except.error (.keyError k)

/-- Python subscript `v[k]` with a string key: keyed lookup on a dict, a
`TypeError` on an array payload. -/
def pySubscript (v : DVal) (k : String) : Except PyErr DVal :=
  match v with
  | .dict entries => pyGet entries k
  | .leaf _ => Except.error (.typeError "string indices require a dict")

/-- Coerces a tree value to a dict, as Python code that treats it as one. -/
def asDict (v : DVal) : Except PyErr Dict :=
  match v with
  | .dict entries => Except.ok entries
  | .leaf _ => Except.error (.typeError "expected a dict")

/-- Python `float(x)` on a scalar numpy payload; any other value is a
`TypeError`. -/
def pyFloatOf (v : DVal) : Except PyErr ℚ :=
  match v with
  | .leaf (.numScalar q) => Except.ok q
  | _ => Except.error (.typeError "float() argument must be a scalar")

/-- Reads a 1-D numeric numpy payload out of a tree value. -/
def asNumVec (v : DVal) : Except PyErr (List ℚ) :=
  match v with
  | .leaf (.numVec l) => Except.ok l
  | _ => Except.error (.typeError "expected a 1-D numeric array")

/-- Reads a 2-D numeric numpy payload out of a tree value. -/
def asNumMat (v : DVal) : Except PyErr (List (List ℚ)) :=
  match v with
  | .leaf (.numMat m) => Except.ok m
  | _ => Except.error (.typeError "expected a 2-D numeric array")

/-- Reads a byte-string payload, as `version_string.tostring().decode('utf-8')`. -/
def asBytes (v : DVal) : Except PyErr String :=
  match v with
  | .leaf (.bytes s) => Except.ok s
  | _ => Except.error (.typeError "expected a byte string")

/-- Element count of a numpy payload (`arr.size`). -/
def payloadSize (p : Payload) : ℕ :=
  match p with
  | .numScalar _ => 1
  | .numVec l => l.length
  | .numMat m => (m.map List.length).sum
  | .bytes s => s.length

/-- Python float division, which raises `ZeroDivisionError` on a zero divisor. -/
def pyDiv (a b : ℚ) : Except PyErr ℚ :=
  if b = 0 then Except.error (.zeroDivisionError "float division by zero")
  else Except.ok (a / b)

/-- Python `try ... except KeyError: raise KeyError(msg)`: replaces a
`KeyError` from the body by one with the given message; every other outcome
passes through. -/
def tryKeyError {α : Type} (body : Except PyErr α) (msg : String) : Except PyErr α :=
  match body with
  | Except.error (.keyError _) => Except.error (.keyError msg)
  | other => other

/-- Python `str.lower` on one character, for the ASCII letters that the format
selector strings consist of. -/
def pyLowerChar (c : Char) : Char :=
  if 65 ≤ c.toNat ∧ c.toNat ≤ 90 then Char.ofNat (c.toNat + 32) else c

/-- Python `str.lower`, modelled character-wise for ASCII strings. -/
def pyLower (s : String) : String := ⟨s.data.map pyLowerChar⟩

/-- Python 3 `round(x)` with no digits argument: the nearest integer, ties
going to the even integer (banker's rounding). -/
def pyRound (q : ℚ) : ℤ :=
  if q - (⌊q⌋ : ℚ) < 1/2 then ⌊q⌋
  else if (1:ℚ)/2 < q - (⌊q⌋ : ℚ) then ⌊q⌋ + 1
  else if ⌊q⌋ % 2 = 0 then ⌊q⌋ else ⌊q⌋ + 1

/-- Value of a digit string, most significant first. -/
def digitsVal (cs : List Char) : ℕ :=
  cs.foldl (fun a c => 10 * a + (c.toNat - 48)) 0

/-- Integer power of ten over the rationals. -/
def qpow10 (e : ℤ) : ℚ :=
  if 0 ≤ e then (10:ℚ) ^ e.toNat else 1 / (10:ℚ) ^ (-e).toNat

/-- Parses the optional exponent suffix of a Python float literal and applies
it to the mantissa `m`. -/
def pyExpPart (cs : List Char) (m : ℚ) : Option ℚ :=
  match cs with
  | [] => some m
  | c :: t =>
    if c = 'e' ∨ c = 'E' then
      let se : ℤ × List Char :=
        match t with
        | '+' :: r => (1, r)
        | '-' :: r => (-1, r)
        | r => (1, r)
      let ed := se.2.takeWhile Char.isDigit
      let r := se.2.dropWhile Char.isDigit
      if ed.isEmpty ∨ ¬ r.isEmpty then none
      else some (m * qpow10 (se.1 * (digitsVal ed : ℤ)))
    else none

/-- Parses an unsigned Python float literal: digits with an optional fraction
part, or a leading dot with digits, and an optional exponent. -/
def pyFloatCore (cs : List Char) : Option ℚ :=
  let ip := cs.takeWhile Char.isDigit
  let r1 := cs.dropWhile Char.isDigit
  match r1 with
  | '.' :: t =>
    let fp := t.takeWhile Char.isDigit
    let r2 := t.dropWhile Char.isDigit
    if ip.isEmpty ∧ fp.isEmpty then none
    else pyExpPart r2 ((digitsVal ip : ℚ) + (digitsVal fp : ℚ) / (10:ℚ) ^ fp.length)
  | _ =>
    if ip.isEmpty then none
    else pyExpPart r1 (digitsVal ip : ℚ)

/-- Python `float(s)` on a string: `some` value on a successful parse, `none`
for the `ValueError` case.  The model covers signed decimal literals with
optional fraction and exponent; it omits surrounding whitespace, underscore
separators and the `inf`/`nan` forms, which no claim exercises. -/
def pyFloat (s : String) : Option ℚ :=
  match s.data with
  | [] => none
  | l =>
    let sc : ℚ × List Char :=
      match l with
      | '+' :: r => (1, r)
      | '-' :: r => (-1, r)
      | r => (1, r)
    match pyFloatCore sc.2 with
    | some q => some (sc.1 * q)
    | none => none

/-- Models CPython `str.format` on a template whose replacement field is
`\x7b:%s\x7d`, as written twice in `field_name_from_hdf_name`.  The format
specification `%s` is not valid for a `str` argument, so CPython raises
`ValueError: Invalid format specifier` before producing any string. -/
def pyFormatPercentSSpec (_template _arg : String) : Except PyErr String :=
  Except.error (.valueError "Invalid format specifier")

/-- Line-by-line embedding of `field_name_from_hdf_name` (ws.py lines 136-153),
including the `try`/`except ValueError` wrapper: the name is parsed with
`float`; on an integral value the code evaluates `"n\x7b:%s\x7d".format(hdf_name)`
and on a non-integral one it builds a `RuntimeError` message with the same
broken format call; in both branches that call raises `ValueError`, which the
`except ValueError` handler turns into returning the name unchanged. -/
def field_name_from_hdf_name (hdf_name : String) : Except PyErr String :=
  let tryBody : Except PyErr String :=
    match pyFloat hdf_name with
    | none => Except.error (.valueError "could not convert string to float")
    | some hdf_name_as_double =>
      if hdf_name_as_double = (pyRound hdf_name_as_double : ℚ) then
        pyFormatPercentSSpec "n{:%s}" hdf_name
      else
        match pyFormatPercentSSpec
            "Unable to convert group/dataset name {:%s} to a valid field name." hdf_name with
        | Except.ok msg => Except.error (.runtimeError msg)
        | Except.error e => Except.error e
  match tryBody with
  | Except.error (.valueError _) => Except.ok hdf_name
  | other => other

/-- Loop body of `crawl_h5_group` (ws.py lines 120-131) over the remaining
children, threading the partially built `result` dict: group children are
crawled recursively, dataset children contribute their payload, and any other
node kind is skipped. -/
def crawl_h5_group_items : List (String × H5Node) → Dict → Except PyErr Dict
  | [], result => Except.ok result
  | (item_name, item) :: rest, result =>
    match item with
    | .group cs => do
        let field_name ← field_name_from_hdf_name item_name
        let sub ← crawl_h5_group_items cs []
        crawl_h5_group_items rest (dset result field_name (.dict sub))
    | .dataset payload => do
        let field_name ← field_name_from_hdf_name item_name
        crawl_h5_group_items rest (dset result field_name (.leaf payload))
    | .other => crawl_h5_group_items rest result

/-- Embedding of `crawl_h5_group` (ws.py lines 117-133): recursively decodes a
group node into a dict. -/
def crawl_h5_group (node : H5Node) : Except PyErr Dict :=
  match node with
  | .group items => crawl_h5_group_items items []
  | _ => Except.error (.typeError "expected a group")

/-- Embedding of `numpy.polyval p x`: Horner evaluation with the
highest-degree coefficient first. -/
def polyval (p : List ℚ) (x : ℚ) : ℚ :=
  p.foldl (fun acc c => acc * x + c) 0

/-- Embedding of `scaled_double_analog_data_from_raw` (ws.py lines 156-177).
The source allocates `numpy.empty(data_as_ADC_counts.shape)` - the same shape
as the input - and overwrites row `i` for each `i < channel_scales.size` with
`(1/channel_scales[i]) * polyval(flipud(scaling_coefficients[i,:]),
data_as_ADC_counts[i,:])`.  Rows beyond the channel count would keep
unspecified `numpy.empty` contents; the model renders such a row as zeros, and
out-of-range row reads (an `IndexError` in numpy) as default values - every
lemma below imposes the rectangular shapes that numpy enforces, under which
neither case arises. -/
def scaled_double_analog_data_from_raw (data_as_ADC_counts : List (List ℚ))
    (channel_scales : List ℚ) (scaling_coefficients : List (List ℚ)) : List (List ℚ) :=
  let n_channels := channel_scales.length
  (List.range data_as_ADC_counts.length).map (fun i =>
    if i < n_channels then
      (data_as_ADC_counts.getD i []).map (fun x =>
        (1 / channel_scales.getD i 0) * polyval ((scaling_coefficients.getD i []).reverse) x)
    else
      (data_as_ADC_counts.getD i []).map (fun _ => 0))

/-- Floor of the base-2 logarithm of a positive rational. -/
def ratLog2Floor (q : ℚ) : ℤ :=
  let d : ℤ := (Nat.log2 q.num.natAbs : ℤ) - (Nat.log2 q.den : ℤ)
  if (if 0 ≤ d then ((2:ℚ) ^ d.toNat) else 1 / (2:ℚ) ^ (-d).toNat) ≤ q then d else d - 1

/-- Integer power of two over the rationals. -/
def qpow2 (e : ℤ) : ℚ :=
  if 0 ≤ e then (2:ℚ) ^ e.toNat else 1 / (2:ℚ) ^ (-e).toNat

/-- Models `numpy.float32` narrowing of one double value (`astype('single')`):
round to 24 significand bits with round-to-nearest, ties to even.  Overflow to
infinity and subnormal underflow are outside the model. -/
def float32OfQ (q : ℚ) : ℚ :=
  if q = 0 then 0
  else
    let a := |q|
    let e : ℤ := ratLog2Floor a - 23
    let r : ℚ := (pyRound (a / qpow2 e) : ℚ) * qpow2 e
    if q < 0 then -r else r

/-- Embedding of `scaled_single_analog_data_from_raw` (ws.py lines 180-182):
the double-precision result, narrowed elementwise to single precision. -/
def scaled_single_analog_data_from_raw (dataAsADCCounts : List (List ℚ))
    (channelScales : List ℚ) (scalingCoefficients : List (List ℚ)) : List (List ℚ) :=
  (scaled_double_analog_data_from_raw dataAsADCCounts channelScales scalingCoefficients).map
    (List.map float32OfQ)

/-- Embedding of ws.py lines 30-35: decode `header["VersionString"]` as text
and parse it as a float, defaulting to version `0` when the field is absent. -/
def resolveVersion (header : Dict) : Except PyErr ℚ :=
  match dget header "VersionString" with
  | some v => do
      let s ← asBytes v
      match pyFloat s with
      | some q => Except.ok q
      | none => Except.error (.valueError "could not convert string to float")
  | none => Except.ok 0

/-- Embedding of ws.py lines 37-45: read `Acquisition.SampleRate` and, when
`100e6 / rate` is not an integer (compared against Python 3 `round`), rewrite
it as `100e6 / floor(ticks)`; the updated header is written back under the
tree's `"header"` key.  Returns the (possibly updated) tree and header. -/
def correctAcquisitionRate (data_file_as_dict : Dict) (header : Dict) :
    Except PyErr (Dict × Dict) := do
  let nominal_acquisition_sample_rate ←
    pyFloatOf (← pySubscript (← pySubscript (.dict header) "Acquisition") "SampleRate")
  let ticksA ← pyDiv 100000000 nominal_acquisition_sample_rate
  if ticksA = (pyRound ticksA : ℚ) then Except.ok (data_file_as_dict, header)
  else do
    let actual_acquisition_sample_rate ← pyDiv 100000000 (⌊ticksA⌋ : ℚ)
    let acqD ← asDict (← pySubscript (.dict header) "Acquisition")
    let header1 := dset header "Acquisition"
      (.dict (dset acqD "SampleRate" (.leaf (.numScalar actual_acquisition_sample_rate))))
    Except.ok (dset data_file_as_dict "header" (.dict header1), header1)

/-- Embedding of ws.py lines 46-53: the same correction for
`Stimulation.SampleRate`, with `round(ticks)` in place of `floor(ticks)`
(the source comment: the boards floor for acquisition but round for
stimulation). -/
def correctStimulationRate (data_file_as_dict : Dict) (header : Dict) :
    Except PyErr (Dict × Dict) := do
  let nominal_stimulation_sample_rate ←
    pyFloatOf (← pySubscript (← pySubscript (.dict header) "Stimulation") "SampleRate")
  let ticksS ← pyDiv 100000000 nominal_stimulation_sample_rate
  if ticksS = (pyRound ticksS : ℚ) then Except.ok (data_file_as_dict, header)
  else do
    let actual_stimulation_sample_rate ← pyDiv 100000000 (pyRound ticksS : ℚ)
    let stimD ← asDict (← pySubscript (.dict header) "Stimulation")
    let header2 := dset header "Stimulation"
      (.dict (dset stimD "SampleRate" (.leaf (.numScalar actual_stimulation_sample_rate))))
    Except.ok (dset data_file_as_dict "header" (.dict header2), header2)

/-- Embedding of the sample-rate correction pass (ws.py lines 36-53): for a
resolved version below 0.9125 both rate fields are corrected in order; for
version at least 0.9125 nothing at all happens. -/
def correctSampleRates (version : ℚ) (data_file_as_dict : Dict) (header : Dict) :
    Except PyErr (Dict × Dict) :=
  if version < 9125 / 10000 then do
    let step1 ← correctAcquisitionRate data_file_as_dict header
    correctStimulationRate step1.1 step1.2
  else Except.ok (data_file_as_dict, header)

/-- Embedding of ws.py lines 57-66: resolve the declared analog-channel count,
preferring `header["NAIChannels"]` and falling back to the element count of
`Acquisition.AnalogChannelScales` (or, for the oldest files,
`Acquisition.ChannelScales`). -/
def resolveNAIChannels (header : Dict) : Except PyErr ℚ :=
  match dget header "NAIChannels" with
  | some v => pyFloatOf v
  | none => do
      let acq ← pySubscript (.dict header) "Acquisition"
      let acqD ← asDict acq
      let all_analog_channel_scales ←
        match dget acqD "AnalogChannelScales" with
        | some v => Except.ok v
        | none => pyGet acqD "ChannelScales"
      match all_analog_channel_scales with
      | .leaf p => Except.ok (payloadSize p : ℚ)
      | .dict entries => Except.ok (entries.length : ℚ)

/-- Embedding of ws.py lines 68-95: resolve the channel scales, the active
mask (applied to the scales by boolean indexing) and the scaling coefficients,
each through its new-schema/old-schema fallback chain guarded by
`try ... except KeyError`. -/
def resolveScaleInputs (header : Dict) : Except PyErr (List ℚ × List (List ℚ)) := do
  let all_analog_channel_scales_v ← tryKeyError
    (match dget header "AIChannelScales" with
     | some v => Except.ok v
     | none => do
         let acq ← pySubscript (.dict header) "Acquisition"
         pySubscript acq "AnalogChannelScales")
    "Unable to read channel scale information from file."
  let is_active ← tryKeyError
    (match dget header "IsAIChannelActive" with
     | some v => do
         let l ← asNumVec v
         Except.ok (l.map (fun q => if q = 0 then false else true))
     | none => do
         let acq ← pySubscript (.dict header) "Acquisition"
         let v ← pySubscript acq "IsAnalogChannelActive"
         let l ← asNumVec v
         Except.ok (l.map (fun q => if q = 0 then false else true)))
    "Unable to read active/inactive channel information from file."
  let all_analog_channel_scales ← asNumVec all_analog_channel_scales_v
  let analog_channel_scales ←
    if all_analog_channel_scales.length = is_active.length then
      Except.ok (((all_analog_channel_scales.zip is_active).filter (fun p => p.2)).map
        (fun p => p.1))
    else Except.error (.typeError "boolean index did not match array length")
  let analog_scaling_coefficients_v ← tryKeyError
    (match dget header "AIScalingCoefficients" with
     | some v => Except.ok v
     | none => do
         let acq ← pySubscript (.dict header) "Acquisition"
         pySubscript acq "AnalogScalingCoefficients")
    "Unable to read channel scaling coefficients from file."
  let analog_scaling_coefficients ← asNumMat analog_scaling_coefficients_v
  Except.ok (analog_channel_scales, analog_scaling_coefficients)

/-- Whether a top-level key names a sweep/trial record (ws.py line 100):
length at least five and prefix `"sweep"` or `"trial"`. -/
def isSweepTrialKey (k : String) : Prop :=
  5 ≤ k.length ∧ (k.take 5 = "sweep" ∨ k.take 5 = "trial")

instance (k : String) : Decidable (isSweepTrialKey k) := by
  unfold isSweepTrialKey
  infer_instance

/-- Embedding of the sweep loop (ws.py lines 98-112): for each top-level key
in order, a sweep/trial record has its `analogScans` matrix read, scaled
(single or double precision per `does_user_want_single`) and written back. -/
def sweepLoop (scales : List ℚ) (coeffs : List (List ℚ)) (single : Bool) :
    List String → Dict → Except PyErr Dict
  | [], d => Except.ok d
  | field_name :: rest, d =>
    if isSweepTrialKey field_name then do
      let record ← pyGet d field_name
      match record with
      | .dict recD => do
          let analog_data_as_counts ← pyGet recD "analogScans"
          let scansM ← asNumMat analog_data_as_counts
          let scaled_analog_data :=
            if single then scaled_single_analog_data_from_raw scansM scales coeffs
            else scaled_double_analog_data_from_raw scansM scales coeffs
          sweepLoop scales coeffs single rest
            (dset d field_name
              (.dict (dset recD "analogScans" (.leaf (.numMat scaled_analog_data)))))
      | .leaf _ => Except.error (.typeError "string indices require a dict")
    else sweepLoop scales coeffs single rest d

/-- Embedding of the analog-scaling pass (ws.py lines 55-112): the channel
count is resolved first; when the format selector is not `raw` and the count
is positive, the scale inputs are resolved and every sweep/trial record is
scaled, otherwise the tree is returned unchanged. -/
def scaleAnalogStep (data_file_as_dict : Dict) (header : Dict) (format_string : String) :
    Except PyErr Dict := do
  let n_a_i_channels ← resolveNAIChannels header
  if pyLower format_string ≠ "raw" ∧ 0 < n_a_i_channels then do
    let inputs ← resolveScaleInputs header
    let does_user_want_single := pyLower format_string = "single"
    sweepLoop inputs.1 inputs.2 does_user_want_single
      (data_file_as_dict.map Prod.fst) data_file_as_dict
  else Except.ok data_file_as_dict

/-- The loader pipeline up to and including the rate correction (ws.py lines
24-53): crawl the file, extract the header, resolve the version and correct
the sample rates. -/
def crawlAndCorrect (file : H5Node) : Except PyErr (Dict × Dict) := do
  let data_file_as_dict ← crawl_h5_group file
  let headerV ← pyGet data_file_as_dict "header"
  let header ← asDict headerV
  let version ← resolveVersion header
  correctSampleRates version data_file_as_dict header

/-- Embedding of `loadDataFile` (ws.py lines 7-114) from the point where the
HDF5 file has been opened: crawl, version-gated rate correction, then the
format-dependent analog scaling pass. -/
def loadDataFile (file : H5Node) (format_string : String) : Except PyErr Dict := do
  let step ← crawlAndCorrect file
  scaleAnalogStep step.1 step.2 format_string

/-- Elementwise single-precision narrowing of a matrix, `astype('single')`. -/
def narrowMat (m : List (List ℚ)) : List (List ℚ) := m.map (List.map float32OfQ)

/-- Narrowing of one sweep/trial record: its `analogScans` matrix, when
present, is narrowed to single precision; everything else is untouched. -/
def narrowRecord (v : DVal) : DVal :=
  match v with
  | .dict recD =>
      match dget recD "analogScans" with
      | some (.leaf (.numMat m)) => .dict (dset recD "analogScans" (.leaf (.numMat (narrowMat m))))
      | _ => .dict recD
  | v => v

/-- Applies a key-dependent value transformation to every entry of a dict,
preserving the keys. -/
def mapVals (g : String → DVal → DVal) (d : Dict) : Dict :=
  d.map (fun e => (e.1, g e.1 e.2))

/-- Narrowing of a whole result tree to single precision, following the spec's
description of the `single` format: the `analogScans` matrix of every
sweep/trial record is narrowed elementwise; all other entries are untouched. -/
def narrowScans (d : Dict) : Dict :=
  mapVals (fun k v => if isSweepTrialKey k then narrowRecord v else v) d

/-- Value transformation used in the sweep-loop invariant: entries whose key
is still to be processed are untouched; already-processed sweep/trial entries
are narrowed. -/
def narrowEntryOutside (keys : List String) (k : String) (v : DVal) : DVal :=
  if k ∈ keys then v else if isSweepTrialKey k then narrowRecord v else v

def wsRateHeader : Dict :=
  [("Acquisition", DVal.dict [("SampleRate", DVal.leaf (Payload.numScalar 40000000))]),
   ("Stimulation", DVal.dict [("SampleRate", DVal.leaf (Payload.numScalar 40000000))])]

def wsRateHeaderFixed : Dict :=
  [("Acquisition", DVal.dict [("SampleRate", DVal.leaf (Payload.numScalar 50000000))]),
   ("Stimulation", DVal.dict [("SampleRate", DVal.leaf (Payload.numScalar 50000000))])]

def wsC6Header : Dict :=
  [("VersionString", DVal.leaf (Payload.bytes "1")),
   ("NAIChannels", DVal.leaf (Payload.numScalar 1)),
   ("AIChannelScales", DVal.leaf (Payload.numVec [2])),
   ("IsAIChannelActive", DVal.leaf (Payload.numVec [1])),
   ("AIScalingCoefficients", DVal.leaf (Payload.numMat [[0, 1]]))]

def wsC6File : H5Node :=
  .group [("header", .group
      [("VersionString", .dataset (.bytes "1")),
       ("NAIChannels", .dataset (.numScalar 1)),
       ("AIChannelScales", .dataset (.numVec [2])),
       ("IsAIChannelActive", .dataset (.numVec [1])),
       ("AIScalingCoefficients", .dataset (.numMat [[0, 1]]))]),
    ("sweep_0001", .group [("analogScans", .dataset (.numMat [[10, 20]]))])]

def wsC6Tree : Dict :=
  [("header", DVal.dict wsC6Header),
   ("sweep_0001", DVal.dict [("analogScans", DVal.leaf (Payload.numMat [[10, 20]]))])]

def wsC7Header : Dict :=
  [("VersionString", DVal.leaf (Payload.bytes "1")),
   ("NAIChannels", DVal.leaf (Payload.numScalar 2))]

def wsC7File : H5Node :=
  .group [("header", .group
      [("VersionString", .dataset (.bytes "1")),
       ("NAIChannels", .dataset (.numScalar 2))])]

def wsC7Tree : Dict := [("header", DVal.dict wsC7Header)]

@[simp] theorem except_ok_bind {α β : Type} (a : α) (f : α → Except PyErr β) :
    (Except.ok a >>= f) = f a := rfl

@[simp] theorem except_error_bind {α β : Type} (e : PyErr) (f : α → Except PyErr β) :
    ((Except.error e : Except PyErr α) >>= f) = Except.error e := rfl

@[simp] theorem except_map_ok {α β : Type} (g : α → β) (a : α) :
    (Except.ok a : Except PyErr α).map g = Except.ok (g a) := rfl

@[simp] theorem except_map_error {α β : Type} (g : α → β) (e : PyErr) :
    (Except.error e : Except PyErr α).map g = (Except.error e : Except PyErr β) := rfl

theorem field_name_from_hdf_name_ok (s : String) :
    field_name_from_hdf_name s = Except.ok s := by
  unfold field_name_from_hdf_name
  cases h : pyFloat s with
  | none => simp [h]
  | some q =>
    simp only [h, pyFormatPercentSSpec]
    rw [ite_self]

theorem dget_dset_self (d : Dict) (k : String) (v : DVal) :
    dget (dset d k v) k = some v := by
  induction d with
  | nil => simp [dget, dset]
  | cons e t ih =>
    obtain ⟨k1, v1⟩ := e
    by_cases h : k1 = k
    · simp [dget, dset, h]
    · simp [dget, dset, h, ih]

theorem dget_dset_ne (d : Dict) (k' : String) (v : DVal) (k : String) (h : k' ≠ k) :
    dget (dset d k' v) k = dget d k := by
  induction d with
  | nil => simp [dget, dset, h]
  | cons e t ih =>
    obtain ⟨k1, v1⟩ := e
    by_cases h1 : k1 = k'
    · simp [dget, dset, h1, h]
    · by_cases h2 : k1 = k <;> simp [dget, dset, h1, h2, Ne.symm h, ih]

theorem dset_dset_self (d : Dict) (k : String) (v w : DVal) :
    dset (dset d k v) k w = dset d k w := by
  induction d with
  | nil => simp [dset]
  | cons e t ih =>
    obtain ⟨k1, v1⟩ := e
    by_cases h : k1 = k
    · simp [dset, h]
    · simp [dset, h, ih]

theorem dget_eq_some_mem (d : Dict) (k : String) (v : DVal) (h : dget d k = some v) :
    k ∈ d.map Prod.fst := by
  induction d with
  | nil => simp [dget] at h
  | cons e t ih =>
    obtain ⟨k1, v1⟩ := e
    by_cases h1 : k1 = k
    · simp [h1]
    · simp only [dget, if_neg h1] at h
      simp [ih h]

theorem mapfst_dset (d : Dict) (k : String) (v : DVal) :
    (dset d k v).map Prod.fst =
      if k ∈ d.map Prod.fst then d.map Prod.fst else d.map Prod.fst ++ [k] := by
  induction d with
  | nil => simp [dset]
  | cons e t ih =>
    obtain ⟨k1, v1⟩ := e
    by_cases h : k1 = k
    · simp [dset, h]
    · have hne : ¬ k = k1 := fun hh => h hh.symm
      by_cases hm : k ∈ t.map Prod.fst <;> simp [dset, h, hne, hm, ih]

theorem nodup_mapfst_dset (d : Dict) (k : String) (v : DVal)
    (h : (d.map Prod.fst).Nodup) : ((dset d k v).map Prod.fst).Nodup := by
  rw [mapfst_dset]
  by_cases hm : k ∈ d.map Prod.fst
  · simpa [hm]
  · simp only [if_neg hm, List.nodup_append]
    refine ⟨h, List.nodup_singleton k, ?_⟩
    intro a ha
    simp only [List.mem_singleton]
    intro hak
    exact hm (hak ▸ ha)

theorem mapfst_mapVals (g : String → DVal → DVal) (d : Dict) :
    (mapVals g d).map Prod.fst = d.map Prod.fst := by
  simp [mapVals, List.map_map, Function.comp_def]

theorem dget_mapVals (g : String → DVal → DVal) (d : Dict) (k : String) :
    dget (mapVals g d) k = (dget d k).map (g k) := by
  induction d with
  | nil => simp [dget, mapVals]
  | cons e t ih =>
    obtain ⟨k1, v1⟩ := e
    by_cases h : k1 = k
    · subst h
      simp [dget, mapVals]
    · simp only [mapVals, List.map_cons, dget, if_neg h]
      simpa [mapVals] using ih

theorem mapVals_congr (d : Dict) (g g' : String → DVal → DVal)
    (h : ∀ e ∈ d, g e.1 e.2 = g' e.1 e.2) : mapVals g d = mapVals g' d := by
  unfold mapVals
  exact List.map_congr_left (fun e he => by rw [h e he])

theorem mapVals_id (d : Dict) : mapVals (fun _ v => v) d = d := by
  simp [mapVals]

theorem dset_mapVals_swap (d : Dict) (g g' : String → DVal → DVal) (k : String) (w : DVal)
    (hnd : (d.map Prod.fst).Nodup) (hag : ∀ k1 v, k1 ≠ k → g' k1 v = g k1 v) :
    dset (mapVals g' d) k (g k w) = mapVals g (dset d k w) := by
  induction d with
  | nil => simp [dset, mapVals]
  | cons e t ih =>
    obtain ⟨k1, v1⟩ := e
    by_cases h : k1 = k
    · subst h
      simp only [mapVals, List.map_cons, dset, if_pos rfl, if_true]
      have hnotin : k1 ∉ t.map Prod.fst := by
        simp only [List.map_cons, List.nodup_cons] at hnd
        exact hnd.1
      have heq : mapVals g' t = mapVals g t := by
        apply mapVals_congr
        intro e he
        apply hag
        intro hk
        exact hnotin (hk ▸ List.mem_map_of_mem Prod.fst he)
      simp only [mapVals] at heq
      rw [heq]
    · simp only [mapVals, List.map_cons, dset, if_neg h]
      have hnd' : (t.map Prod.fst).Nodup := by
        simp only [List.map_cons, List.nodup_cons] at hnd
        exact hnd.2
      rw [hag k1 v1 h]
      have := ih hnd'
      simp only [mapVals] at this
      rw [this]

theorem crawl_items_nodup : ∀ (items : List (String × H5Node)) (acc : Dict),
    (acc.map Prod.fst).Nodup → ∀ r, crawl_h5_group_items items acc = Except.ok r →
    (r.map Prod.fst).Nodup := by
  intro items acc
  induction items, acc using crawl_h5_group_items.induct with
  | case1 result =>
    intro h r hr
    simp only [crawl_h5_group_items, Except.ok.injEq] at hr
    exact hr ▸ h
  | case2 item_name rest result cs ih2 ih1 =>
    intro h r hr
    simp only [crawl_h5_group_items, field_name_from_hdf_name_ok, except_ok_bind] at hr
    cases e : crawl_h5_group_items cs [] with
    | error err => rw [e] at hr; simp at hr
    | ok sub =>
      rw [e] at hr
      simp only [except_ok_bind] at hr
      exact ih1 item_name sub (nodup_mapfst_dset result item_name _ h) r hr
  | case3 item_name rest result payload ih1 =>
    intro h r hr
    simp only [crawl_h5_group_items, field_name_from_hdf_name_ok, except_ok_bind] at hr
    exact ih1 item_name (nodup_mapfst_dset result item_name _ h) r hr
  | case4 item_name rest result ih1 =>
    intro h r hr
    simp only [crawl_h5_group_items] at hr
    exact ih1 h r hr

theorem crawl_h5_group_nodup (file : H5Node) (d : Dict)
    (h : crawl_h5_group file = Except.ok d) : (d.map Prod.fst).Nodup := by
  cases file with
  | group items =>
    simp only [crawl_h5_group] at h
    exact crawl_items_nodup items [] (by simp) d h
  | dataset p => simp [crawl_h5_group] at h
  | other => simp [crawl_h5_group] at h

theorem polyval_append (p : List ℚ) (c x : ℚ) :
    polyval (p ++ [c]) x = polyval p x * x + c := by
  unfold polyval
  rw [List.foldl_append]
  rfl

theorem polyval_reverse_eq_sum (l : List ℚ) (x : ℚ) :
    polyval l.reverse x =
      ((List.range l.length).map (fun j => l.getD j 0 * x ^ j)).sum := by
  induction l with
  | nil => simp [polyval]
  | cons c t ih =>
    rw [List.reverse_cons, polyval_append, ih, List.length_cons, List.range_succ_eq_map]
    simp only [List.map_cons, List.sum_cons, List.map_map, Function.comp_def,
      List.getD_cons_zero, pow_zero, mul_one, List.getD_cons_succ, pow_succ, ← mul_assoc]
    rw [List.sum_map_mul_right]
    ring

theorem pyLowerChar_idem (c : Char) : pyLowerChar (pyLowerChar c) = pyLowerChar c := by
  unfold pyLowerChar
  split
  · rename_i h
    have hv : (Char.ofNat (c.toNat + 32)).toNat = c.toNat + 32 := by
      have : Nat.isValidChar (c.toNat + 32) := by
        left
        omega
      simp [Char.ofNat, this]
      rfl
    rw [if_neg]
    omega
  · rfl

theorem pyLower_idem (s : String) : pyLower (pyLower s) = pyLower s := by
  unfold pyLower
  simp only [List.map_map]
  exact congrArg String.mk (List.map_congr_left (fun c _ => pyLowerChar_idem c))

theorem loadDataFile_pyLower_congr (file : H5Node) (s1 s2 : String)
    (h : pyLower s1 = pyLower s2) : loadDataFile file s1 = loadDataFile file s2 := by
  unfold loadDataFile scaleAnalogStep
  rw [h]

theorem correctAcquisitionRate_dshape (d h d' h' : Dict)
    (hc : correctAcquisitionRate d h = Except.ok (d', h')) :
    d' = d ∨ ∃ x, d' = dset d "header" x := by
  unfold correctAcquisitionRate at hc
  cases e1 : pySubscript (DVal.dict h) "Acquisition" with
  | error e => rw [e1] at hc; simp at hc
  | ok v1 =>
    rw [e1] at hc
    simp only [except_ok_bind] at hc
    cases e1b : pySubscript v1 "SampleRate" with
    | error e => rw [e1b] at hc; simp at hc
    | ok v2 =>
      rw [e1b] at hc
      simp only [except_ok_bind] at hc
      cases e2 : pyFloatOf v2 with
      | error e => rw [e2] at hc; simp at hc
      | ok nom =>
        rw [e2] at hc
        simp only [except_ok_bind] at hc
        cases e3 : pyDiv 100000000 nom with
        | error e => rw [e3] at hc; simp at hc
        | ok ticks =>
          rw [e3] at hc
          simp only [except_ok_bind] at hc
          by_cases ht : ticks = (pyRound ticks : ℚ)
          · rw [if_pos ht] at hc
            simp only [Except.ok.injEq, Prod.mk.injEq] at hc
            exact Or.inl hc.1.symm
          · rw [if_neg ht] at hc
            cases e4 : pyDiv 100000000 (⌊ticks⌋ : ℚ) with
            | error e => rw [e4] at hc; simp at hc
            | ok actual =>
              rw [e4] at hc
              simp only [except_ok_bind] at hc
              cases e5 : asDict v1 with
              | error e => rw [e5] at hc; simp at hc
              | ok subD =>
                rw [e5] at hc
                simp only [except_ok_bind, Except.ok.injEq, Prod.mk.injEq] at hc
                exact Or.inr ⟨_, hc.1.symm⟩

theorem correctStimulationRate_dshape (d h d' h' : Dict)
    (hc : correctStimulationRate d h = Except.ok (d', h')) :
    d' = d ∨ ∃ x, d' = dset d "header" x := by
  unfold correctStimulationRate at hc
  cases e1 : pySubscript (DVal.dict h) "Stimulation" with
  | error e => rw [e1] at hc; simp at hc
  | ok v1 =>
    rw [e1] at hc
    simp only [except_ok_bind] at hc
    cases e1b : pySubscript v1 "SampleRate" with
    | error e => rw [e1b] at hc; simp at hc
    | ok v2 =>
      rw [e1b] at hc
      simp only [except_ok_bind] at hc
      cases e2 : pyFloatOf v2 with
      | error e => rw [e2] at hc; simp at hc
      | ok nom =>
        rw [e2] at hc
        simp only [except_ok_bind] at hc
        cases e3 : pyDiv 100000000 nom with
        | error e => rw [e3] at hc; simp at hc
        | ok ticks =>
          rw [e3] at hc
          simp only [except_ok_bind] at hc
          by_cases ht : ticks = (pyRound ticks : ℚ)
          · rw [if_pos ht] at hc
            simp only [Except.ok.injEq, Prod.mk.injEq] at hc
            exact Or.inl hc.1.symm
          · rw [if_neg ht] at hc
            cases e4 : pyDiv 100000000 (pyRound ticks : ℚ) with
            | error e => rw [e4] at hc; simp at hc
            | ok actual =>
              rw [e4] at hc
              simp only [except_ok_bind] at hc
              cases e5 : asDict v1 with
              | error e => rw [e5] at hc; simp at hc
              | ok subD =>
                rw [e5] at hc
                simp only [except_ok_bind, Except.ok.injEq, Prod.mk.injEq] at hc
                exact Or.inr ⟨_, hc.1.symm⟩

theorem dshape_frame (d d' : Dict) (hs : d' = d ∨ ∃ x, d' = dset d "header" x) :
    (∀ k, k ≠ "header" → dget d' k = dget d k) ∧
      ((d.map Prod.fst).Nodup → (d'.map Prod.fst).Nodup) := by
  rcases hs with h | ⟨x, h⟩
  · subst h
    exact ⟨fun _ _ => rfl, id⟩
  · subst h
    constructor
    · intro k hk
      exact dget_dset_ne d "header" x k (fun hh => hk hh.symm)
    · intro hnd
      exact nodup_mapfst_dset d "header" x hnd

theorem correctSampleRates_frame (v : ℚ) (d h d' h' : Dict)
    (hc : correctSampleRates v d h = Except.ok (d', h')) :
    (∀ k, k ≠ "header" → dget d' k = dget d k) ∧
      ((d.map Prod.fst).Nodup → (d'.map Prod.fst).Nodup) := by
  unfold correctSampleRates at hc
  by_cases hv : v < 9125 / 10000
  · rw [if_pos hv] at hc
    cases ea : correctAcquisitionRate d h with
    | error e => rw [ea] at hc; simp at hc
    | ok s1 =>
      rw [ea] at hc
      simp only [except_ok_bind] at hc
      have f1 := dshape_frame d s1.1
        (correctAcquisitionRate_dshape d h s1.1 s1.2 (by rw [ea]))
      have f2 := dshape_frame s1.1 d'
        (correctStimulationRate_dshape s1.1 s1.2 d' h' hc)
      constructor
      · intro k hk
        rw [f2.1 k hk, f1.1 k hk]
      · intro hnd
        exact f2.2 (f1.2 hnd)
  · rw [if_neg hv] at hc
    simp only [Except.ok.injEq, Prod.mk.injEq] at hc
    rw [← hc.1]
    exact ⟨fun _ _ => rfl, id⟩

theorem narrowScans_eq_mapVals_nil (d : Dict) :
    narrowScans d = mapVals (narrowEntryOutside []) d := by
  unfold narrowScans
  apply mapVals_congr
  intro e _
  simp [narrowEntryOutside]

theorem sweepLoop_single_narrow (scales : List ℚ) (coeffs : List (List ℚ)) :
    ∀ (keys : List String) (d : Dict),
      (d.map Prod.fst).Nodup →
      keys.Sublist (d.map Prod.fst) →
      sweepLoop scales coeffs true keys (mapVals (narrowEntryOutside keys) d)
        = (sweepLoop scales coeffs false keys d).map narrowScans := by
  intro keys
  induction keys with
  | nil =>
    intro d _ _
    simp only [sweepLoop, except_map_ok, narrowScans_eq_mapVals_nil]
  | cons k0 rest ih =>
    intro d hnd hsub
    have hk0rest : k0 ∉ rest := by
      have hk := hsub.nodup hnd
      exact (List.nodup_cons.mp hk).1
    have hrestsub : rest.Sublist (d.map Prod.fst) := List.sublist_of_cons_sublist hsub
    have hag : ∀ k1 v, k1 ≠ k0 →
        narrowEntryOutside (k0 :: rest) k1 v = narrowEntryOutside rest k1 v := by
      intro k1 v hne
      simp [narrowEntryOutside, List.mem_cons, hne]
    by_cases hsw : isSweepTrialKey k0
    · simp only [sweepLoop, if_pos hsw]
      cases hv : dget d k0 with
      | none =>
        have hvm : dget (mapVals (narrowEntryOutside (k0 :: rest)) d) k0 = none := by
          rw [dget_mapVals, hv]
          rfl
        simp [pyGet, hv, hvm]
      | some v =>
        have hvm : dget (mapVals (narrowEntryOutside (k0 :: rest)) d) k0 = some v := by
          rw [dget_mapVals, hv]
          simp [narrowEntryOutside]
        simp only [pyGet, hv, hvm, except_ok_bind]
        cases v with
        | leaf p => simp
        | dict recD =>
          cases hs : dget recD "analogScans" with
          | none => simp [pyGet, hs]
          | some scansV =>
            simp only [pyGet, hs, except_ok_bind]
            cases scansV with
            | dict e2 => simp [asNumMat]
            | leaf p2 =>
              cases p2 with
              | numScalar q => simp [asNumMat]
              | numVec l => simp [asNumMat]
              | bytes b => simp [asNumMat]
              | numMat M =>
                simp only [asNumMat, except_ok_bind, if_true, if_false, Bool.false_eq_true,
                  if_pos, if_neg]
                have hmem : k0 ∈ d.map Prod.fst := dget_eq_some_mem d k0 _ hv
                have hwS : DVal.dict (dset recD "analogScans"
                      (DVal.leaf (Payload.numMat (scaled_single_analog_data_from_raw M scales coeffs))))
                    = narrowEntryOutside rest k0 (DVal.dict (dset recD "analogScans"
                      (DVal.leaf (Payload.numMat (scaled_double_analog_data_from_raw M scales coeffs))))) := by
                  simp only [narrowEntryOutside, if_neg hk0rest, if_pos hsw, narrowRecord,
                    dget_dset_self, dset_dset_self]
                  rfl
                rw [hwS, dset_mapVals_swap d (narrowEntryOutside rest)
                  (narrowEntryOutside (k0 :: rest)) k0 _ hnd hag]
                have hfst : ((dset d k0 (DVal.dict (dset recD "analogScans"
                    (DVal.leaf (Payload.numMat
                      (scaled_double_analog_data_from_raw M scales coeffs)))))).map Prod.fst)
                    = d.map Prod.fst := by
                  rw [mapfst_dset, if_pos hmem]
                rw [ih _ (by rw [hfst]; exact hnd) (by rw [hfst]; exact hrestsub)]
    · simp only [sweepLoop, if_neg hsw]
      have heq : mapVals (narrowEntryOutside (k0 :: rest)) d
          = mapVals (narrowEntryOutside rest) d := by
        apply mapVals_congr
        intro e _
        by_cases hek : e.1 = k0
        · simp [narrowEntryOutside, hek, hk0rest, hsw]
        · exact hag e.1 e.2 hek
      rw [heq, ih d hnd hrestsub]

theorem mapVals_narrowEntryOutside_self (d : Dict) :
    mapVals (narrowEntryOutside (d.map Prod.fst)) d = d := by
  have h : ∀ e ∈ d, narrowEntryOutside (d.map Prod.fst) e.1 e.2 = (fun _ v => v) e.1 e.2 := by
    intro e he
    simp [narrowEntryOutside, List.mem_map_of_mem Prod.fst he]
  rw [mapVals_congr d _ (fun _ v => v) h, mapVals_id]

theorem scaleAnalogStep_raw (d h : Dict) (n : ℚ)
    (hn : resolveNAIChannels h = Except.ok n) :
    scaleAnalogStep d h "raw" = Except.ok d := by
  unfold scaleAnalogStep
  rw [hn]
  simp only [except_ok_bind]
  rw [if_neg]
  intro hcon
  exact hcon.1 (by decide)

theorem scaleAnalogStep_single_eq_double (d h : Dict) (n : ℚ)
    (hnd : (d.map Prod.fst).Nodup) (hn : resolveNAIChannels h = Except.ok n)
    (hpos : 0 < n) :
    scaleAnalogStep d h "single" = (scaleAnalogStep d h "double").map narrowScans := by
  unfold scaleAnalogStep
  rw [hn]
  simp only [except_ok_bind]
  rw [if_pos ⟨by decide, hpos⟩, if_pos ⟨by decide, hpos⟩]
  cases hi : resolveScaleInputs h with
  | error e => simp
  | ok inputs =>
    simp only [except_ok_bind]
    have hsingle : (decide (pyLower "single" = "single")) = true := by decide
    have hdouble : (decide (pyLower "double" = "single")) = false := by decide
    rw [hsingle, hdouble]
    have hmain := sweepLoop_single_narrow inputs.1 inputs.2 (d.map Prod.fst) d hnd
      (List.Sublist.refl _)
    rw [mapVals_narrowEntryOutside_self d] at hmain
    exact hmain

/-- C3: the claim says integer-valued node names get an `"n"` prefix, e.g.
`normalize("3") = "n3"` and `normalize("007") = "n007"`.  On the code this
fails: both names parse as integral floats (shown by the `pyFloat`/`pyRound`
conjuncts), yet the normalizer returns them unchanged, because the invalid
format specifier in `"n\x7b:%s\x7d".format(...)` raises a `ValueError` that the
`except ValueError` handler swallows. -/
theorem c3_integer_names_not_prefixed :
    field_name_from_hdf_name "3" = Except.ok "3" ∧
    field_name_from_hdf_name "3" ≠ Except.ok "n3" ∧
    field_name_from_hdf_name "007" = Except.ok "007" ∧
    field_name_from_hdf_name "007" ≠ Except.ok "n007" ∧
    pyFloat "3" = some 3 ∧ pyRound 3 = 3 ∧
    pyFloat "007" = some 7 ∧ pyRound 7 = 7 := by
  refine ⟨field_name_from_hdf_name_ok "3", ?_, field_name_from_hdf_name_ok "007", ?_,
    ?_, ?_, ?_, ?_⟩
  · rw [field_name_from_hdf_name_ok]
    simp
  · rw [field_name_from_hdf_name_ok]
    simp
  · simp [pyFloat, pyFloatCore, pyExpPart, digitsVal]
  · unfold pyRound
    norm_num
  · simp [pyFloat, pyFloatCore, pyExpPart, digitsVal]
  · unfold pyRound
    norm_num

/-- C4: the claim says a numeric-but-non-integral name such as `"3.5"` makes
the normalizer fail with `InvalidNodeName`, and a non-numeric name such as
`"ch1"` is returned unchanged.  On the code the second half holds but the
first fails: `"3.5"` parses as the non-integral `7/2` (shown by the
`pyFloat`/`pyRound` conjuncts), yet the normalizer returns `"3.5"` unchanged
and raises nothing, because building the `RuntimeError` message itself raises
a `ValueError` (invalid format specifier) that the handler swallows. -/
theorem c4_non_integral_names_do_not_fail :
    field_name_from_hdf_name "3.5" = Except.ok "3.5" ∧
    pyFloat "3.5" = some (7/2) ∧ (7/2 : ℚ) ≠ (pyRound (7/2) : ℚ) ∧
    field_name_from_hdf_name "ch1" = Except.ok "ch1" ∧ pyFloat "ch1" = none := by
  refine ⟨field_name_from_hdf_name_ok "3.5", ?_, ?_, field_name_from_hdf_name_ok "ch1", ?_⟩
  · simp [pyFloat, pyFloatCore, pyExpPart, digitsVal]
    norm_num
  · have hr : pyRound (7/2) = 4 := by
      unfold pyRound
      norm_num
    rw [hr]
    norm_num
  · simp [pyFloat, pyFloatCore]

/-- C8: when the resolved version is at least 0.9125 the sample-rate
correction pass does nothing and raises no error: it returns the tree and
header exactly as given. -/
theorem c8_rate_correction_skipped_on_new_versions (version : ℚ)
    (data_file_as_dict header : Dict) (hv : 9125 / 10000 ≤ version) :
    correctSampleRates version data_file_as_dict header
      = Except.ok (data_file_as_dict, header) := by
  unfold correctSampleRates
  rw [if_neg (not_lt.mpr hv)]

theorem c8_witness :
    (9125 / 10000 : ℚ) ≤ 1 ∧
    correctSampleRates 1 [("x", DVal.leaf (Payload.bytes "y"))] []
      = Except.ok ([("x", DVal.leaf (Payload.bytes "y"))], []) := by
  constructor
  · norm_num
  · exact c8_rate_correction_skipped_on_new_versions 1 _ _ (by norm_num)

/-- C9: the crawler maps a group child to its recursively crawled nested
mapping under its normalized name, a dataset child to its full payload under
its normalized name, and silently skips any other node kind; in particular a
container holding group `"A"` with dataset `"B" = [1,2,3]` and empty group
`"C"` decodes to the nested mapping with exactly those entries. -/
theorem c9_crawler_behaviour :
    (∀ (name : String) (rest : List (String × H5Node)) (acc : Dict),
      crawl_h5_group_items ((name, H5Node.other) :: rest) acc
        = crawl_h5_group_items rest acc) ∧
    (∀ (name : String) (cs rest : List (String × H5Node)) (acc : Dict) (fn : String)
      (sub : Dict), field_name_from_hdf_name name = Except.ok fn →
      crawl_h5_group_items cs [] = Except.ok sub →
      crawl_h5_group_items ((name, H5Node.group cs) :: rest) acc
        = crawl_h5_group_items rest (dset acc fn (DVal.dict sub))) ∧
    (∀ (name : String) (p : Payload) (rest : List (String × H5Node)) (acc : Dict)
      (fn : String), field_name_from_hdf_name name = Except.ok fn →
      crawl_h5_group_items ((name, H5Node.dataset p) :: rest) acc
        = crawl_h5_group_items rest (dset acc fn (DVal.leaf p))) ∧
    crawl_h5_group (H5Node.group [("A", H5Node.group
        [("B", H5Node.dataset (Payload.numVec [1, 2, 3])), ("C", H5Node.group [])])])
      = Except.ok [("A", DVal.dict
          [("B", DVal.leaf (Payload.numVec [1, 2, 3])), ("C", DVal.dict [])])] := by
  refine ⟨?_, ?_, ?_, ?_⟩
  · intro name rest acc
    simp only [crawl_h5_group_items]
  · intro name cs rest acc fn sub hfn hsub
    simp only [crawl_h5_group_items, hfn, hsub, except_ok_bind]
  · intro name p rest acc fn hfn
    simp only [crawl_h5_group_items, hfn, except_ok_bind]
  · simp [crawl_h5_group, crawl_h5_group_items, field_name_from_hdf_name_ok, dset]

theorem c9_witness :
    crawl_h5_group_items [("X", H5Node.other)] [] = crawl_h5_group_items [] [] ∧
    crawl_h5_group_items [("A", H5Node.group
        [("B", H5Node.dataset (Payload.numVec [1, 2, 3])), ("C", H5Node.group [])])] []
      = crawl_h5_group_items []
          (dset [] "A" (DVal.dict [("B", DVal.leaf (Payload.numVec [1, 2, 3])),
            ("C", DVal.dict [])])) ∧
    crawl_h5_group_items [("B", H5Node.dataset (Payload.numVec [1, 2, 3]))] []
      = crawl_h5_group_items [] (dset [] "B" (DVal.leaf (Payload.numVec [1, 2, 3]))) := by
  refine ⟨c9_crawler_behaviour.1 "X" [] [], ?_, ?_⟩
  · exact c9_crawler_behaviour.2.1 "A" _ [] [] "A" _ (field_name_from_hdf_name_ok "A")
      (by simp [crawl_h5_group_items, field_name_from_hdf_name_ok, dset])
  · exact c9_crawler_behaviour.2.2.1 "B" _ [] [] "B" (field_name_from_hdf_name_ok "B")

/-- Congruence of the scaling pass in the format selector: only the two
lowercased comparisons with `"raw"` and `"single"` matter. -/
theorem scaleAnalogStep_format_congr (d h : Dict) (s1 s2 : String)
    (hr : (pyLower s1 = "raw") ↔ (pyLower s2 = "raw"))
    (hs : (pyLower s1 = "single") ↔ (pyLower s2 = "single")) :
    scaleAnalogStep d h s1 = scaleAnalogStep d h s2 := by
  unfold scaleAnalogStep
  have hb : (decide (pyLower s1 = "single")) = (decide (pyLower s2 = "single")) :=
    decide_eq_decide.mpr hs
  have hc : (pyLower s1 ≠ "raw") ↔ (pyLower s2 ≠ "raw") := not_congr hr
  simp only [hb, hc]

/-- C10: the format selector is matched case-insensitively and any selector
whose lowercase form is neither `"raw"` nor `"single"` behaves exactly like
`"double"`: loading never fails because of an unrecognized selector. -/
theorem c10_format_selector (file : H5Node) (s : String) :
    loadDataFile file s = loadDataFile file (pyLower s) ∧
    (pyLower s ≠ "raw" → pyLower s ≠ "single" →
      loadDataFile file s = loadDataFile file "double") := by
  constructor
  · exact loadDataFile_pyLower_congr file s (pyLower s) (pyLower_idem s).symm
  · intro h1 h2
    unfold loadDataFile
    congr 1
    funext step
    exact scaleAnalogStep_format_congr step.1 step.2 s "double"
      (iff_of_false h1 (by decide)) (iff_of_false h2 (by decide))

theorem c10_witness :
    loadDataFile H5Node.other "FLOAT" = loadDataFile H5Node.other "float" ∧
    loadDataFile H5Node.other "FLOAT" = loadDataFile H5Node.other "double" ∧
    pyLower "FLOAT" = "float" := by
  have h := c10_format_selector H5Node.other "FLOAT"
  refine ⟨?_, h.2 (by decide) (by decide), by decide⟩
  have hl : pyLower "FLOAT" = "float" := by decide
  rw [← hl]
  exact h.1

theorem getD_range_map {α : Type} (n : ℕ) (f : ℕ → α) (i : ℕ) (dflt : α) (h : i < n) :
    (((List.range n).map f).getD i dflt) = f i := by
  rw [List.getD_eq_getElem?_getD, List.getElem?_map, List.getElem?_range h]
  rfl

/-- C5: for the double format, the scaled sample row of active channel `i` is
the raw row mapped through `x ↦ (1/scale i) * Σ_j coeffs i j * x^j`: the
stored lowest-degree-first coefficient row is reversed and Horner-evaluated,
which equals the power sum. -/
theorem c5_polynomial_scaling (data : List (List ℚ)) (scales : List ℚ)
    (coeffs : List (List ℚ)) (i : ℕ) (hi : i < scales.length)
    (hlen : data.length = scales.length) :
    (scaled_double_analog_data_from_raw data scales coeffs).getD i []
      = (data.getD i []).map (fun x => (1 / scales.getD i 0) *
          (((List.range (coeffs.getD i []).length).map
            (fun j => (coeffs.getD i []).getD j 0 * x ^ j)).sum)) := by
  unfold scaled_double_analog_data_from_raw
  have hilt : i < data.length := hlen ▸ hi
  rw [getD_range_map data.length _ i [] hilt, if_pos hi]
  simp only [polyval_reverse_eq_sum]

theorem c5_witness :
    (0 : ℕ) < 1 ∧
    scaled_double_analog_data_from_raw [[10]] [2] [[0, 1]] = [[5]] := by
  constructor
  · norm_num
  · have h := c5_polynomial_scaling [[10]] [2] [[0, 1]] 0 (by norm_num) (by norm_num)
    have hrow : (scaled_double_analog_data_from_raw [[10]] [2] [[0, 1]]).getD 0 [] = [5] := by
      rw [h]
      simp [List.range_succ]
      norm_num
    have hlen : (scaled_double_analog_data_from_raw [[10]] [2] [[0, 1]]).length = 1 := by
      simp [scaled_double_analog_data_from_raw]
    cases hm : scaled_double_analog_data_from_raw [[10]] [2] [[0, 1]] with
    | nil => rw [hm] at hlen; simp at hlen
    | cons r t =>
      rw [hm] at hlen hrow
      cases t with
      | nil => simp at hrow; rw [hrow]
      | cons r2 t2 => simp at hlen

/-- C2: the claim (and the source's own docstring) says the scaled result has
the transposed shape `n_scans x n_channels`.  On the code this fails: the
scaled matrix is allocated with `numpy.empty(data.shape)` and filled row per
channel, so a 1-channel, 2-scan input produces a 1 x 2 matrix (same
orientation as the input), not a 2 x 1 one. -/
theorem c2_no_transpose :
    scaled_double_analog_data_from_raw [[10, 20]] [2] [[0, 1]] = [[5, 10]] ∧
    scaled_double_analog_data_from_raw [[10, 20]] [2] [[0, 1]] ≠ [[5], [10]] ∧
    (∀ (data : List (List ℚ)) (scales : List ℚ) (coeffs : List (List ℚ)),
      (scaled_double_analog_data_from_raw data scales coeffs).length = data.length) := by
  have he : scaled_double_analog_data_from_raw [[10, 20]] [2] [[0, 1]] = [[5, 10]] := by
    simp [scaled_double_analog_data_from_raw, List.range_succ, polyval]
    norm_num
  refine ⟨he, ?_, ?_⟩
  · rw [he]
    simp
  · intro data scales coeffs
    simp [scaled_double_analog_data_from_raw]

theorem correct_rates_at_2_5_ticks :
    correctSampleRates 0 [("header", DVal.dict wsRateHeader)] wsRateHeader
      = Except.ok ([("header", DVal.dict wsRateHeaderFixed)], wsRateHeaderFixed) := by
  have hr : pyRound (5/2 : ℚ) = 2 := by
    unfold pyRound
    norm_num
  have hfl : (⌊(5/2 : ℚ)⌋ : ℤ) = 2 := by norm_num
  have t1 : ((100000000 : ℚ)) / 40000000 = 5/2 := by norm_num
  simp [correctSampleRates, correctAcquisitionRate, correctStimulationRate, wsRateHeader,
    wsRateHeaderFixed, pySubscript, pyGet, dget, asDict, pyFloatOf, pyDiv, dset, hr, hfl, t1]
  norm_num [pySubscript, pyGet, dget, asDict, pyFloatOf, pyDiv, dset, hr, hfl]
  simp [pySubscript, pyGet, dget, asDict, pyFloatOf, pyDiv, dset, hr, hfl]
  norm_num [hr]

/-- C1: the claim says that for nominal rates of 40 MHz (ticks-per-sample
2.5) under version 0.9125 the corrector floors the acquisition ticks, giving
50 MHz, but rounds the stimulation ticks half-away-from-zero to 3, giving
100e6/3, so that the two corrected rates differ.  On the code this fails:
Python 3 `round` rounds the tie 2.5 to the even integer 2, so the stimulation
rate also becomes 100e6/2 = 50 MHz, equal to the acquisition rate and not
equal to 100e6/3. -/
theorem c1_counterexample :
    (0 : ℚ) < 9125 / 10000 ∧
    (100000000 : ℚ) / 40000000 = 5 / 2 ∧
    correctSampleRates 0 [("header", DVal.dict wsRateHeader)] wsRateHeader
      = Except.ok ([("header", DVal.dict wsRateHeaderFixed)], wsRateHeaderFixed) ∧
    dget wsRateHeaderFixed "Stimulation"
      = some (DVal.dict [("SampleRate", DVal.leaf (Payload.numScalar 50000000))]) ∧
    (50000000 : ℚ) ≠ 100000000 / 3 := by
  refine ⟨by norm_num, by norm_num, correct_rates_at_2_5_ticks, ?_, by norm_num⟩
  simp [wsRateHeaderFixed, dget]

/-- C1 (amended): for the 2.5-ticks-per-sample input under the version
threshold, the corrector sets the acquisition rate to 100e6/floor(2.5) =
50 MHz and the stimulation rate to 100e6/round(2.5) where Python 3 `round`
rounds the tie to the even integer 2, so the stimulation rate is also 50 MHz
and the two corrected rates are equal. -/
theorem c1_amended_rates_equal :
    pyRound (5/2 : ℚ) = 2 ∧ (⌊(5/2 : ℚ)⌋ : ℤ) = 2 ∧
    correctSampleRates 0 [("header", DVal.dict wsRateHeader)] wsRateHeader
      = Except.ok ([("header", DVal.dict wsRateHeaderFixed)], wsRateHeaderFixed) ∧
    dget wsRateHeaderFixed "Acquisition" = dget wsRateHeaderFixed "Stimulation" := by
  refine ⟨?_, by norm_num, correct_rates_at_2_5_ticks, ?_⟩
  · unfold pyRound
    norm_num
  · simp [wsRateHeaderFixed, dget]

theorem crawlAndCorrect_frame (file : H5Node) (d0 d header : Dict)
    (hcrawl : crawl_h5_group file = Except.ok d0)
    (hcc : crawlAndCorrect file = Except.ok (d, header)) :
    (∀ k, k ≠ "header" → dget d k = dget d0 k) ∧ (d.map Prod.fst).Nodup := by
  unfold crawlAndCorrect at hcc
  rw [hcrawl] at hcc
  simp only [except_ok_bind] at hcc
  cases e1 : pyGet d0 "header" with
  | error e => rw [e1] at hcc; simp at hcc
  | ok hv =>
    rw [e1] at hcc
    simp only [except_ok_bind] at hcc
    cases e2 : asDict hv with
    | error e => rw [e2] at hcc; simp at hcc
    | ok h0 =>
      rw [e2] at hcc
      simp only [except_ok_bind] at hcc
      cases e3 : resolveVersion h0 with
      | error e => rw [e3] at hcc; simp at hcc
      | ok v =>
        rw [e3] at hcc
        simp only [except_ok_bind] at hcc
        have hf := correctSampleRates_frame v d0 h0 d header hcc
        exact ⟨hf.1, hf.2 (crawl_h5_group_nodup file d0 hcrawl)⟩

theorem isSweepTrialKey_ne_header (k : String) (h : isSweepTrialKey k) : k ≠ "header" := by
  intro hk
  subst hk
  exact absurd h (by decide)

/-- C6: with the resolved channel count in hand, loading with format `raw`
returns the crawled-and-rate-corrected tree unchanged - in particular every
sweep/trial entry still holds the raw counts produced by the crawler - and
loading with format `single` returns exactly the `double` result with every
sweep/trial `analogScans` matrix narrowed to single precision afterwards
(when the channel count is not positive both formats return the unscaled tree
and are equal outright). -/
theorem c6_raw_unchanged_and_single_refines_double (file : H5Node)
    (d0 d header : Dict) (n : ℚ)
    (hcrawl : crawl_h5_group file = Except.ok d0)
    (hcc : crawlAndCorrect file = Except.ok (d, header))
    (hn : resolveNAIChannels header = Except.ok n) :
    (loadDataFile file "raw" = Except.ok d ∧
      ∀ k, isSweepTrialKey k → dget d k = dget d0 k) ∧
    (0 < n → loadDataFile file "single" = (loadDataFile file "double").map narrowScans) ∧
    (¬ 0 < n → loadDataFile file "single" = loadDataFile file "double") := by
  have hframe := crawlAndCorrect_frame file d0 d header hcrawl hcc
  refine ⟨⟨?_, ?_⟩, ?_, ?_⟩
  · unfold loadDataFile
    rw [hcc]
    simp only [except_ok_bind]
    exact scaleAnalogStep_raw d header n hn
  · intro k hk
    exact hframe.1 k (isSweepTrialKey_ne_header k hk)
  · intro hpos
    unfold loadDataFile
    rw [hcc]
    simp only [except_ok_bind]
    exact scaleAnalogStep_single_eq_double d header n hframe.2 hn hpos
  · intro hpos
    unfold loadDataFile
    rw [hcc]
    simp only [except_ok_bind]
    unfold scaleAnalogStep
    rw [hn]
    simp only [except_ok_bind]
    rw [if_neg (fun hcon => hpos hcon.2), if_neg (fun hcon => hpos hcon.2)]

/-- C7: when scaling is requested (selector not `raw` after lowercasing, a
positive declared analog channel count) and the header has neither the
new-schema `AIChannelScales` nor the old-schema `Acquisition.AnalogChannelScales`
field, loading fails with the `KeyError` naming the channel scales as the
unreadable item. -/
theorem c7_missing_scales_fails (file : H5Node) (d header : Dict) (n : ℚ) (fmt : String)
    (hcc : crawlAndCorrect file = Except.ok (d, header))
    (hfmt : pyLower fmt ≠ "raw")
    (hn : dget header "NAIChannels" = some (DVal.leaf (Payload.numScalar n)))
    (hpos : 0 < n)
    (hnew : dget header "AIChannelScales" = none)
    (hold : ∃ m, (do
        let acq ← pySubscript (DVal.dict header) "Acquisition"
        pySubscript acq "AnalogChannelScales") = Except.error (PyErr.keyError m)) :
    loadDataFile file fmt
      = Except.error (.keyError "Unable to read channel scale information from file.") := by
  obtain ⟨m, hm⟩ := hold
  unfold loadDataFile
  rw [hcc]
  simp only [except_ok_bind]
  unfold scaleAnalogStep
  have hres : resolveNAIChannels header = Except.ok n := by
    unfold resolveNAIChannels
    rw [hn]
    rfl
  rw [hres]
  simp only [except_ok_bind]
  rw [if_pos ⟨hfmt, hpos⟩]
  unfold resolveScaleInputs
  rw [hnew, hm]
  rfl

theorem wsC6_crawl : crawl_h5_group wsC6File = Except.ok wsC6Tree := by
  simp [wsC6File, wsC6Tree, wsC6Header, crawl_h5_group, crawl_h5_group_items,
    field_name_from_hdf_name_ok, dset]

theorem wsC6_version : resolveVersion wsC6Header = Except.ok 1 := by
  simp [wsC6Header, resolveVersion, dget, asBytes, pyFloat, pyFloatCore, pyExpPart, digitsVal]

theorem wsC6_cc : crawlAndCorrect wsC6File = Except.ok (wsC6Tree, wsC6Header) := by
  unfold crawlAndCorrect
  rw [wsC6_crawl]
  simp only [except_ok_bind]
  have h1 : pyGet wsC6Tree "header" = Except.ok (DVal.dict wsC6Header) := by
    simp [wsC6Tree, pyGet, dget]
  rw [h1]
  simp only [except_ok_bind, asDict]
  rw [wsC6_version]
  simp only [except_ok_bind]
  unfold correctSampleRates
  rw [if_neg (by norm_num)]

theorem wsC6_nai : resolveNAIChannels wsC6Header = Except.ok 1 := by
  simp [wsC6Header, resolveNAIChannels, dget, pyFloatOf]

theorem c6_witness :
    loadDataFile wsC6File "raw" = Except.ok wsC6Tree ∧
    loadDataFile wsC6File "single"
      = (loadDataFile wsC6File "double").map narrowScans := by
  have h := c6_raw_unchanged_and_single_refines_double wsC6File wsC6Tree wsC6Tree
    wsC6Header 1 wsC6_crawl wsC6_cc wsC6_nai
  exact ⟨h.1.1, h.2.1 (by norm_num)⟩

theorem wsC7_cc : crawlAndCorrect wsC7File = Except.ok (wsC7Tree, wsC7Header) := by
  unfold crawlAndCorrect
  have hc : crawl_h5_group wsC7File = Except.ok wsC7Tree := by
    simp [wsC7File, wsC7Tree, wsC7Header, crawl_h5_group, crawl_h5_group_items,
      field_name_from_hdf_name_ok, dset]
  rw [hc]
  simp only [except_ok_bind]
  have h1 : pyGet wsC7Tree "header" = Except.ok (DVal.dict wsC7Header) := by
    simp [wsC7Tree, pyGet, dget]
  rw [h1]
  simp only [except_ok_bind, asDict]
  have h2 : resolveVersion wsC7Header = Except.ok 1 := by
    simp [wsC7Header, resolveVersion, dget, asBytes, pyFloat, pyFloatCore, pyExpPart, digitsVal]
  rw [h2]
  simp only [except_ok_bind]
  unfold correctSampleRates
  rw [if_neg (by norm_num)]

theorem c7_witness :
    loadDataFile wsC7File "double"
      = Except.error (.keyError "Unable to read channel scale information from file.") := by
  apply c7_missing_scales_fails wsC7File wsC7Tree wsC7Header 2 "double" wsC7_cc
  · decide
  · simp [wsC7Header, dget]
  · norm_num
  · simp [wsC7Header, dget]
  · exact ⟨"Acquisition", by simp [wsC7Header, pySubscript, pyGet, dget]⟩
